import Mathlib

/-!
Shallow embedding of the VSOL OLT monitoring engine (`monitor_vsol.py`):
the telemetry extractors, the SNMP and command-shell probers, the scan and
refresh passes over the in-memory inventory, and the aggregate statistics.

Strings are modelled as `List Char`; Python text methods (`lower`, `split`,
substring membership, `float()` parsing) are modelled on the ASCII fragment,
which covers every string the program manipulates.  Machine floats are
modelled as `Rat` (the program only compares and stores decimal readings).
Code that can raise is modelled in `Except Unit`; `try/except` blocks of the
source become explicit `match`es on the `Except` value at the place where
the Python handler sits.  Network and device I/O (SNMP queries, SSH
connections, command output) is abstracted as a `Net` record of response
functions, so that every operation of the program becomes a pure function
of the network behaviour.
-/

abbrev Str := List Char

instance {ε α : Type} [DecidableEq ε] [DecidableEq α] : DecidableEq (Except ε α)
  | .ok a, .ok b =>
    if h : a = b then isTrue (by rw [h]) else isFalse (by intro hh; cases hh; exact h rfl)
  | .ok _, .error _ => isFalse (by intro h; cases h)
  | .error _, .ok _ => isFalse (by intro h; cases h)
  | .error a, .error b =>
    if h : a = b then isTrue (by rw [h]) else isFalse (by intro hh; cases hh; exact h rfl)

/-- Convert a Lean string literal to the `List Char` representation. -/
def str (s : String) : Str := s.toList

/-- ASCII case folding, modelling Python `str.lower` on the program's data. -/
def lowerChar (c : Char) : Char :=
  if 'A' ≤ c ∧ c ≤ 'Z' then Char.ofNat (c.toNat + 32) else c

def lowerStr (s : Str) : Str := s.map lowerChar

/-- ASCII upper casing, modelling Python `str.upper` on the program's data. -/
def upperChar (c : Char) : Char :=
  if 'a' ≤ c ∧ c ≤ 'z' then Char.ofNat (c.toNat - 32) else c

def upperStr (s : Str) : Str := s.map upperChar

/-- Python `needle in hay` on strings: `needle` occurs as a contiguous
substring of `hay`. -/
def hasSub (needle : Str) : Str → Bool
  | [] => needle.isEmpty
  | c :: rest => needle.isPrefixOf (c :: rest) || hasSub needle rest

/-- Python `s.split(sep)` for a one-character separator (used with `'\n'`,
`'/'` and `'.'`): always returns at least one piece, keeps empty pieces. -/
def splitOnChar (sep : Char) : Str → List Str
  | [] => [[]]
  | c :: rest =>
    match splitOnChar sep rest with
    | [] => [[c]]
    | t :: ts => if c = sep then [] :: t :: ts else (c :: t) :: ts

/-- Python `str.split()` with no argument: split on whitespace runs,
dropping empty pieces.  `cur` holds the (reversed) token being built. -/
def pySplitGo (cur : Str) : Str → List Str
  | [] => if cur.isEmpty then [] else [cur.reverse]
  | c :: rest =>
    if c.isWhitespace then
      if cur.isEmpty then pySplitGo [] rest else cur.reverse :: pySplitGo [] rest
    else pySplitGo (c :: cur) rest

def pySplit (s : Str) : List Str := pySplitGo [] s

/-- Python `str.strip()` (ASCII whitespace). -/
def pyStrip (s : Str) : Str :=
  ((s.dropWhile Char.isWhitespace).reverse.dropWhile Char.isWhitespace).reverse

/-- The guard `parte.replace('.','').replace('-','').isdigit()` of the
numeric extractors: after deleting every `'.'` and `'-'` the token is a
nonempty run of digits. -/
def digitGuard (t : Str) : Bool :=
  let s := t.filter (fun c => ¬(c = '.' ∨ c = '-'))
  ¬s.isEmpty ∧ s.all Char.isDigit

def digitsVal (ds : Str) : Nat :=
  ds.foldl (fun acc c => 10 * acc + (c.toNat - '0'.toNat)) 0

/-- Python `float(t)` on the simple decimal forms: an optional sign, an
integer part and an optional fractional part, with at least one digit.
`none` models a raised `ValueError`.  On tokens drawn from digits, `'.'`
and `'-'` — the only tokens the guarded extractors ever pass to `float` —
this is exactly Python's behaviour; exponents, `inf`/`nan`, underscores and
embedded whitespace (which such tokens cannot contain) are not modelled. -/
def pyFloat (t : Str) : Option Rat :=
  let (neg, rest) :=
    match t with
    | '-' :: r => (true, r)
    | '+' :: r => (false, r)
    | r => (false, r)
  let intPart := rest.takeWhile Char.isDigit
  let rest2 := rest.drop intPart.length
  let mk : Str → Str → Option Rat := fun ip fp =>
    if ip.isEmpty ∧ fp.isEmpty then none
    else
      let v : Rat := mkRat (Int.ofNat (digitsVal ip * 10 ^ fp.length + digitsVal fp)) (10 ^ fp.length)
      some (if neg then -v else v)
  match rest2 with
  | [] => mk intPart []
  | '.' :: frac => if frac.all Char.isDigit then mk intPart frac else none
  | _ => none

/-- Shared shape of the guarded numeric extractors: scan lines in order;
in the first line satisfying `lineMatch` that holds a guarded token, return
`float` of that token (a parse failure is a raised error); a matching line
with no guarded token does not stop the scan; no hit at all yields `none`. -/
def numScan (lineMatch : Str → Bool) : List Str → Except Unit (Option Rat)
  | [] => .ok none
  | l :: ls =>
    if lineMatch l then
      match (pySplit l).find? digitGuard with
      | some t =>
        match pyFloat t with
        | some v => .ok (some v)
        | none => .error ()
      | none => numScan lineMatch ls
    else numScan lineMatch ls

/-- `extraer_temperatura`: first guarded token of a line containing
`temperature` (case-insensitive); `None` when no such line/token exists. -/
def extraer_temperatura (output : Str) : Except Unit (Option Rat) :=
  numScan (fun l => hasSub (str "temperature") (lowerStr l)) (splitOnChar '\n' output)

/-- `extraer_rx_power`: first guarded token of a line containing both `rx`
and `power` (case-insensitive); sentinel `-999` when none exists. -/
def extraer_rx_power (output : Str) : Except Unit Rat :=
  (numScan (fun l => hasSub (str "rx") (lowerStr l) && hasSub (str "power") (lowerStr l))
      (splitOnChar '\n' output)).map (fun o => o.getD (-999))

/-- `extraer_tx_power`: as `extraer_rx_power` with keyword `tx`. -/
def extraer_tx_power (output : Str) : Except Unit Rat :=
  (numScan (fun l => hasSub (str "tx") (lowerStr l) && hasSub (str "power") (lowerStr l))
      (splitOnChar '\n' output)).map (fun o => o.getD (-999))

/-- Inner token loop of `extraer_porcentaje`: first token containing `%`
whose `%`-stripped text parses as a float; parse failures are swallowed by
the source's `try/except: continue`. -/
def pctTok : List Str → Option Rat
  | [] => none
  | t :: ts =>
    if t.contains '%' then
      match pyFloat (t.filter (fun c => c ≠ '%')) with
      | some v => some v
      | none => pctTok ts
    else pctTok ts

def pctGo : List Str → Option Rat
  | [] => none
  | l :: ls =>
    if l.contains '%' then
      match pctTok (pySplit l) with
      | some v => some v
      | none => pctGo ls
    else pctGo ls

/-- `extraer_porcentaje`: first `%`-token of a `%`-line that parses; `None`
otherwise.  Total: every parse failure is caught in the source. -/
def extraer_porcentaje (output : Str) : Option Rat :=
  pctGo (splitOnChar '\n' output)

def serialGo : List Str → Option Str
  | [] => none
  | l :: ls =>
    if hasSub (str "serial") (lowerStr l) || hasSub (str "sn") (lowerStr l) then
      let parts := pySplit l
      if 1 < parts.length then
        match parts.getLast? with
        | some t => some (pyStrip t)
        | none => serialGo ls
      else serialGo ls
    else serialGo ls

/-- `extraer_serial`: last token of the first line containing `serial` or
`sn` (case-insensitive) that has more than one token; `None` otherwise. -/
def extraer_serial (output : Str) : Option Str :=
  serialGo (splitOnChar '\n' output)


/-- `extraer_nombre_sistema` falls back to a name synthesized from the wall
clock (`OLT-<HHMM>`); the clock is abstracted to a fixed reading, which no
claim observes (only counts and telemetry fields are at stake). -/
def fallbackNombre : Str := str "OLT-0000"

/-- `extraer_nombre_sistema`: last token of the first line containing
`hostname` or `nombre` that has more than one token; clock-based fallback. -/
def nombreGo : List Str → Str
  | [] => fallbackNombre
  | l :: ls =>
    if hasSub (str "hostname") (lowerStr l) || hasSub (str "nombre") (lowerStr l) then
      let parts := pySplit l
      if 1 < parts.length then
        match parts.getLast? with
        | some t => t
        | none => nombreGo ls
      else nombreGo ls
    else nombreGo ls

def extraer_nombre_sistema (system_info : Str) : Str :=
  nombreGo (splitOnChar '\n' system_info)

/-- `extraer_modelo`: first line containing `model` or `hardware`, stripped
and truncated to 50 characters; fallback `VSOL-OLT`. -/
def modeloGo : List Str → Str
  | [] => str "VSOL-OLT"
  | l :: ls =>
    if hasSub (str "model") (lowerStr l) || hasSub (str "hardware") (lowerStr l) then
      (pyStrip l).take 50
    else modeloGo ls

def extraer_modelo (version_info : Str) : Str :=
  modeloGo (splitOnChar '\n' version_info)

/-- `es_olt_vsol`: falsy input is rejected, otherwise any of the four
markers must occur in the upper-cased text. -/
def es_olt_vsol (version_info : Str) : Bool :=
  if version_info.isEmpty then false
  else
    hasSub (str "VSOL") (upperStr version_info) || hasSub (str "V-SOL") (upperStr version_info) ||
      hasSub (str "GPON") (upperStr version_info) || hasSub (str "OLT") (upperStr version_info)

/-- One subscriber unit (`ONUInfo` dataclass).  `consumo_bytes` is always
written as a fresh random traffic sample straight to persistence and
`ultima_actualizacion` is a wall-clock timestamp; neither is observed by
any claim, so both are omitted from the record. -/
structure ONUInfo where
  serial : Str
  interfaz : Str
  slot : Str
  puerto : Str
  rx_power : Rat
  tx_power : Rat
  estado : Str
deriving DecidableEq

/-- One line terminal (`OLTInfo` dataclass).  `snmp_community` models the
dynamically attached attribute: `none` means the attribute is absent. -/
structure OLTInfo where
  ip : Str
  nombre : Str
  modelo : Str
  temperatura : Option Rat := none
  consumo_cpu : Option Rat := none
  consumo_memoria : Option Rat := none
  total_onus : Nat := 0
  onus_por_puerto : List (Str × Nat) := []
  onus_detalladas : List ONUInfo := []
  snmp_community : Option Str := none
deriving DecidableEq

structure Cred where
  username : Str
  password : Str
deriving DecidableEq

/-- The network/device environment the monitor talks to.  `snmpGet ip oid
community` is the value of one SNMP GET (`none` models every failure mode
that the source's own handlers turn into `None`); `cmd ip command` is the
output of `ejecutar_comando` over an SSH session to `ip` (already `""` on
a command error, as in the source); `sshConnect` tells whether
`ssh.connect` with a credential succeeds; `port22` models the TCP probe. -/
structure Net where
  snmpGet : Str → Str → Str → Option Str
  snmpWalk : Str → Str → Str → List (Str × Str)
  port22 : Str → Bool
  sshConnect : Str → Cred → Bool
  cmd : Str → Str → Str

def sysDescrOid : Str := str "1.3.6.1.2.1.1.1.0"

def sysNameOid : Str := str "1.3.6.1.2.1.1.5.0"

def sysLocOid : Str := str "1.3.6.1.2.1.1.6.0"

def cmdShowVersion : Str := str "show version"

def cmdShowSystem : Str := str "show system"

def cmdTemperature : Str := str "show system temperature"

def cmdCpu : Str := str "show cpu usage"

def cmdMem : Str := str "show memory usage"

def cmdOnuState : Str := str "show gpon onu state"

/-- The three alternative per-unit detail commands, in source order. -/
def detallesCmds (interfaz onuId : Str) : List Str :=
  [str "show gpon onu detail " ++ interfaz ++ [' '] ++ onuId,
   str "show onu opm-diag " ++ interfaz ++ [' '] ++ onuId,
   str "show gpon onu optical-info " ++ interfaz ++ [' '] ++ onuId]

/-- Python `a or b` for an optional string against a default: `None` and
the empty string are falsy. -/
def pyOr (o : Option Str) (dflt : Str) : Str :=
  match o with
  | some s => if s.isEmpty then dflt else s
  | none => dflt

/-- The candidate record `probar_snmp_olt` builds for one community whose
system-description query came back (`d` is that description). -/
structure SnmpProbeInfo where
  ip : Str
  nombre : Str
  modelo : Str
  community : Str
deriving DecidableEq

/-- The marker test of `probar_snmp_olt`: `'VSOL' in d.upper() or 'OLT' in
d.upper() or 'GPON' in d.upper()`. -/
def esMarcadorSnmp (d : Str) : Bool :=
  hasSub (str "VSOL") (upperStr d) || hasSub (str "OLT") (upperStr d) ||
    hasSub (str "GPON") (upperStr d)

def buildSnmpInfo (net : Net) (ip community d : Str) : SnmpProbeInfo :=
  { ip := ip
    nombre := pyOr (net.snmpGet ip sysNameOid community)
      (str "OLT-" ++ (splitOnChar '.' ip).getLastD [])
    modelo := if d.isEmpty then str "VSOL-OLT-SNMP" else d.take 50
    community := community }

/-- `probar_snmp_olt`: try each community in order against the sysDescr
OID; stop at the first whose query answers with a truthy description
containing a marker; `none` on exhaustion. -/
def probar_snmp_olt (net : Net) (communities : List Str) (ip : Str) : Option SnmpProbeInfo :=
  match communities with
  | [] => none
  | c :: cs =>
    match net.snmpGet ip sysDescrOid c with
    | some d =>
      if ¬d.isEmpty ∧ esMarcadorSnmp d then some (buildSnmpInfo net ip c d)
      else probar_snmp_olt net cs ip
    | none => probar_snmp_olt net cs ip

/-- What one community contributes in `probar_snmp_olt`, in isolation: the
candidate record when its query succeeds with a truthy, marker-bearing
description.  Used to state the first-match property of the prober. -/
def snmpCandidate (net : Net) (ip c : Str) : Option SnmpProbeInfo :=
  match net.snmpGet ip sysDescrOid c with
  | some d => if ¬d.isEmpty ∧ esMarcadorSnmp d then some (buildSnmpInfo net ip c d) else none
  | none => none

/-- `obtener_detalles_onu`, inner loop over the three detail commands: the
first usable output (nonempty, no `invalid`) is parsed for serial and
RX/TX power; a raised extraction error is caught by the function's own
handler, which returns `(None, -999, -999)`. -/
def detallesGo (net : Net) (ip : Str) : List Str → Option Str × Rat × Rat
  | [] => (none, -999, -999)
  | c :: cs =>
    let out := net.cmd ip c
    if ¬out.isEmpty ∧ ¬hasSub (str "invalid") (lowerStr out) then
      match extraer_rx_power out, extraer_tx_power out with
      | .ok rx, .ok tx => (extraer_serial out, rx, tx)
      | _, _ => (none, -999, -999)
    else detallesGo net ip cs

def obtener_detalles_onu (net : Net) (ip interfaz onuId : Str) : Option Str × Rat × Rat :=
  detallesGo net ip (detallesCmds interfaz onuId)

/-- Build one `ONUInfo` from a parsed unit row plus its detail query. -/
def mkONU (net : Net) (ip interfaz slot puerto onuId estado : Str) : ONUInfo :=
  let d := obtener_detalles_onu net ip interfaz onuId
  { serial := pyOr d.1 (str "UNKNOWN-" ++ interfaz ++ ['-'] ++ onuId)
    interfaz := interfaz
    slot := slot
    puerto := puerto
    rx_power := d.2.1
    tx_power := d.2.2
    estado := estado }

/-- `obtener_informacion_onus`, line loop.  A first token holding exactly
one `/` makes `partes[0].split('/')[2]` raise `IndexError`, which the
function's own handler catches: the units parsed so far are kept and the
rest of the listing is dropped. -/
def onusGo (net : Net) (ip : Str) : List Str → List ONUInfo
  | [] => []
  | l :: ls =>
    if hasSub (str "gpon") (lowerStr l) ∧ hasSub (str "onu") (lowerStr l) then
      let parts := pySplit l
      if 4 ≤ parts.length then
        let p0 := parts.headD []
        let onuId := parts.getD 1 []
        let estado := parts.getD 2 []
        if p0.contains '/' then
          let segs := splitOnChar '/' p0
          match segs.get? 2 with
          | some puerto => mkONU net ip p0 (segs.getD 1 []) puerto onuId estado :: onusGo net ip ls
          | none => []
        else mkONU net ip p0 (str "0") (str "0") onuId estado :: onusGo net ip ls
      else onusGo net ip ls
    else onusGo net ip ls

def obtener_informacion_onus (net : Net) (ip : Str) : List ONUInfo :=
  onusGo net ip (splitOnChar '\n' (net.cmd ip cmdOnuState))

/-- `contar_onus_por_puerto`: a dict counting units keyed by `onu.interfaz`
(the source binds the key variable `puerto` to the interface field). -/
def bumpKey (k : Str) : List (Str × Nat) → List (Str × Nat)
  | [] => [(k, 1)]
  | (k', n) :: rest => if k' = k then (k', n + 1) :: rest else (k', n) :: bumpKey k rest

def contar_onus_por_puerto (onus : List ONUInfo) : List (Str × Nat) :=
  onus.foldl (fun acc o => bumpKey o.interfaz acc) []

/-- Python truthiness of an optional number (`if olt_info.temperatura:`):
`None` and `0` are falsy. -/
def truthyR (o : Option Rat) : Bool :=
  match o with
  | some v => decide (v ≠ 0)
  | none => false

/-- `actualizar_informacion_olt`: refreshes temperature, CPU/memory load
and the unit list of one record, returning the updated record together
with the metric samples handed to `guardar_metrica`, in call order.  An
error raised by the temperature extractor is caught by the function's own
handler before any field is assigned; everything after that point is
total in the source (its failures are caught deeper down). -/
def actualizar_informacion_olt (net : Net) (ip : Str) (rec : OLTInfo) :
    OLTInfo × List (Str × Rat) :=
  match extraer_temperatura (net.cmd ip cmdTemperature) with
  | .error _ => (rec, [])
  | .ok t =>
    let ms1 := if truthyR t then [(str "temperatura", t.getD 0)] else []
    let cpu := extraer_porcentaje (net.cmd ip cmdCpu)
    let mem := extraer_porcentaje (net.cmd ip cmdMem)
    let ms := ms1 ++ (if truthyR cpu then [(str "cpu", cpu.getD 0)] else []) ++
      (if truthyR mem then [(str "memoria", mem.getD 0)] else [])
    let onus := obtener_informacion_onus net ip
    ({ rec with
        temperatura := t
        consumo_cpu := cpu
        consumo_memoria := mem
        onus_detalladas := onus
        total_onus := onus.length
        onus_por_puerto := contar_onus_por_puerto onus }, ms)

/-- `identificar_olt_vsol`, credential loop.  Returns the credentials on
which a connection was attempted (in order) together with, on success, the
credential that yielded the identification and the populated record.  A
connection that succeeds against a device whose version output shows no
marker closes the session and rotation continues. -/
def identificarGo (net : Net) (ip : Str) : List Cred → List Cred × Option (Cred × OLTInfo)
  | [] => ([], none)
  | c :: cs =>
    if net.sshConnect ip c then
      let version := net.cmd ip cmdShowVersion
      let system := net.cmd ip cmdShowSystem
      if es_olt_vsol version then
        let rec0 : OLTInfo :=
          { ip := ip
            nombre := extraer_nombre_sistema system
            modelo := extraer_modelo version }
        ([c], some (c, (actualizar_informacion_olt net ip rec0).1))
      else
        let r := identificarGo net ip cs
        (c :: r.1, r.2)
    else
      let r := identificarGo net ip cs
      (c :: r.1, r.2)

def identificar_olt_vsol (net : Net) (ip : Str) (creds : List Cred) : Option OLTInfo :=
  ((identificarGo net ip creds).2).map Prod.snd

/-- The credentials `identificar_olt_vsol` attempts a connection with. -/
def identificarAttempts (net : Net) (ip : Str) (creds : List Cred) : List Cred :=
  (identificarGo net ip creds).1

/-- The in-memory inventory `olts_detectadas`, a dict keyed by address,
modelled as an association list with its dict update operation. -/
abbrev Inventario := List (Str × OLTInfo)

/-- Python dict assignment `d[k] = v`: replace the binding in place when
the key exists, append it otherwise. -/
def upsert (k : Str) (v : OLTInfo) : Inventario → Inventario
  | [] => [(k, v)]
  | (k', v') :: rest => if k' = k then (k, v) :: rest else (k', v') :: upsert k v rest

/-- Python dict lookup `d.get(k)` / `k in d`. -/
def lookupInv (k : Str) : Inventario → Option OLTInfo
  | [] => none
  | (k', v) :: rest => if k' = k then some v else lookupInv k rest

def claves (inv : Inventario) : List Str := inv.map Prod.fst

/-- Record built for an address detected by the SNMP prober: basic fields
from the probe plus the dynamically attached `snmp_community`. -/
def mkSnmpOLT (s : SnmpProbeInfo) : OLTInfo :=
  { ip := s.ip, nombre := s.nombre, modelo := s.modelo, snmp_community := some s.community }

/-- What `verificar_ip` would store for one address: SNMP is tried first;
otherwise, when TCP port 22 answers, the shell prober runs.  `none` means
the address contributes nothing to the inventory. -/
def scanResult (net : Net) (creds : List Cred) (communities : List Str) (ip : Str) :
    Option OLTInfo :=
  match probar_snmp_olt net communities ip with
  | some s => some (mkSnmpOLT s)
  | none => if net.port22 ip then identificar_olt_vsol net ip creds else none

/-- `verificar_ip`: commit the identification result for one address to
the inventory (a dict assignment under the address). -/
def verificar_ip (net : Net) (creds : List Cred) (communities : List Str)
    (inv : Inventario) (ip : Str) : Inventario :=
  match scanResult net creds communities ip with
  | some r => upsert ip r inv
  | none => inv

/-- One scan pass of `escanear_red_empresarial` over a list of candidate
addresses.  The source fans the addresses out over worker pools; against a
fixed network the committed map is the same as processing them in order,
which is the sequential model used here. -/
def escanear_red_empresarial (net : Net) (creds : List Cred) (communities : List Str)
    (addrs : List Str) (inv : Inventario) : Inventario :=
  addrs.foldl (verificar_ip net creds communities) inv

/-- `obtener_info_snmp_olt`: the detail dict gathered over SNMP.  Every
query inside catches its own failures (`snmp_get` yields `None`,
`snmp_walk` yields `[]`), so the dict is always built and always carries
its system keys. -/
structure InfoSnmp where
  sysDescr : Option Str
  sysName : Option Str
  sysLocation : Option Str
  interfaces : List (Str × Str)
  onu_count : Nat
deriving DecidableEq

def obtener_info_snmp_olt (net : Net) (ip community : Str) : InfoSnmp :=
  { sysDescr := net.snmpGet ip sysDescrOid community
    sysName := net.snmpGet ip sysNameOid community
    sysLocation := net.snmpGet ip sysLocOid community
    interfaces := (net.snmpWalk ip (str "1.3.6.1.2.1.2.2.1.2") community).filterMap
      (fun p => if p.2.isEmpty then none else some ((splitOnChar '.' p.1).getLastD [], p.2))
    onu_count := ((net.snmpWalk ip (str "1.3.6.1.4.1") community).filter
      (fun p => hasSub (str "onu") (lowerStr p.2))).length }

/-- `actualizar_olt_snmp`: returns `False` without the attribute; with it,
`obtener_info_snmp_olt` always returns a dict holding the three system
keys, which is truthy, so the function returns `True`.  It only logs: the
record is not modified. -/
def actualizar_olt_snmp (_net : Net) (rec : OLTInfo) : Bool :=
  match rec.snmp_community with
  | some _ => true
  | none => false

/-- One authentication attempt made by the refresh pass. -/
inductive Auth where
  | snmp (community : Str)
  | shell (idx : Nat)
deriving DecidableEq

/-- Refresh of one inventoried record in `actualizar_todas_olts`: the SNMP
path is taken when the record carries a community; otherwise the shell
path always uses `credenciales[0]` (an empty credential list raises
`IndexError`, caught by the per-device handler).  A connection failure is
caught by the same handler, leaving the record untouched. -/
def refreshOne (net : Net) (creds : List Cred) (ip : Str) (rec : OLTInfo) : OLTInfo :=
  if rec.snmp_community.isSome ∧ actualizar_olt_snmp net rec then rec
  else
    match creds with
    | [] => rec
    | c0 :: _ => if net.sshConnect ip c0 then (actualizar_informacion_olt net ip rec).1 else rec

/-- The authentication attempts the refresh pass makes for one record, in
order: the stored community when present (with the shell fallback behind
it when the SNMP update reports failure), else `credenciales[0]`. -/
def refreshAttempts (net : Net) (creds : List Cred) (rec : OLTInfo) : List Auth :=
  match rec.snmp_community with
  | some c =>
    if actualizar_olt_snmp net rec then [Auth.snmp c]
    else Auth.snmp c :: (if creds.isEmpty then [] else [Auth.shell 0])
  | none => if creds.isEmpty then [] else [Auth.shell 0]

/-- `actualizar_todas_olts`: refresh every inventoried record in place;
no entry is ever added or removed by the pass. -/
def actualizar_todas_olts (net : Net) (creds : List Cred) (inv : Inventario) : Inventario :=
  inv.map (fun e => (e.1, refreshOne net creds e.1 e.2))

/-- The aggregate statistics record of `obtener_estadisticas`. -/
structure Estadisticas where
  total_olts : Nat
  total_onus : Nat
  olts_online : Nat
  onus_senal_baja : Nat
deriving DecidableEq

/-- `obtener_estadisticas`: totals over the inventory; the low-signal loop
counts units with `onu.rx_power < -27`. -/
def obtener_estadisticas (inv : Inventario) : Estadisticas :=
  { total_olts := inv.length
    total_onus := inv.foldl (fun acc e => acc + e.2.total_onus) 0
    olts_online := inv.length
    onus_senal_baja := inv.foldl
      (fun acc e => e.2.onus_detalladas.foldl
        (fun a o => if o.rx_power < -27 then a + 1 else a) acc) 0 }

/-- All subscriber units of the inventory, in iteration order. -/
def allOnus (inv : Inventario) : List ONUInfo :=
  (inv.map (fun e => e.2.onus_detalladas)).flatten

/-! ### Concrete environments used by the counterexamples and witnesses -/

/-- Credentials from the source's configured rotation list. -/
def credA : Cred := { username := str "admin", password := str "admin" }

def credB : Cred := { username := str "admin", password := str "Admin123!" }

def credC : Cred := { username := str "admin", password := str "vsol123" }

def ip1 : Str := str "192.168.0.10"

/-- A device that accepts only the second credential and whose version
output carries no vendor/technology marker. -/
def netGeneric : Net :=
  { snmpGet := fun _ _ _ => none
    snmpWalk := fun _ _ _ => []
    port22 := fun _ => true
    sshConnect := fun _ c => decide (c = credB)
    cmd := fun _ command => if command = cmdShowVersion then str "generic device software" else [] }

/-- A device that accepts only the second credential and identifies as a
VSOL line terminal. -/
def netVsolB : Net :=
  { snmpGet := fun _ _ _ => none
    snmpWalk := fun _ _ _ => []
    port22 := fun _ => true
    sshConnect := fun _ c => decide (c = credB)
    cmd := fun _ command => if command = cmdShowVersion then str "V-SOL V1600G OLT hardware" else [] }


/-- The success test of one credential in the shell prober's rotation: the
connection succeeds and the version output identifies a VSOL terminal. -/
def credHit (net : Net) (ip : Str) (c : Cred) : Bool :=
  net.sshConnect ip c && es_olt_vsol (net.cmd ip cmdShowVersion)

/-- Demo device for the aggregate-statistics claims: three units with RX
power readings −20, −28 and −30 dBm. -/
def onuDemo (r : Rat) : ONUInfo :=
  { serial := str "GPON1234", interfaz := str "gpon0/1", slot := str "0", puerto := str "1",
    rx_power := r, tx_power := -20, estado := str "online" }

def oltDemo : OLTInfo :=
  { ip := str "192.168.0.9", nombre := str "OLT-9", modelo := str "VSOL-OLT",
    total_onus := 3, onus_detalladas := [onuDemo (-20), onuDemo (-28), onuDemo (-30)] }

def invDemo : Inventario := [(str "192.168.0.9", oltDemo)]


/-- A quiet environment: no SNMP answers, no open shell port, no output. -/
def netDown : Net :=
  { snmpGet := fun _ _ _ => none
    snmpWalk := fun _ _ _ => []
    port22 := fun _ => false
    sshConnect := fun _ _ => false
    cmd := fun _ _ => [] }

/-- A network where exactly one address answers SNMP on the first
community with a marker-bearing description. -/
def netSnmpDemo : Net :=
  { snmpGet := fun ip oid c =>
      if ip = str "10.0.0.1" ∧ oid = sysDescrOid ∧ c = str "public"
      then some (str "VSOL GPON OLT V1600") else none
    snmpWalk := fun _ _ _ => []
    port22 := fun _ => false
    sshConnect := fun _ _ => false
    cmd := fun _ _ => [] }

def addrsDemo : List Str := [str "10.0.0.1", str "10.0.0.2"]

/-- A shell-discovered record (no `snmp_community` attribute). -/
def recShellDemo : OLTInfo :=
  { ip := str "192.168.0.5", nombre := str "OLT-5", modelo := str "VSOL-OLT" }

def invShellDemo : Inventario := [(str "192.168.0.5", recShellDemo)]

/-- An SNMP-discovered record carrying its community. -/
def recSnmpDemo : OLTInfo :=
  { ip := str "10.0.0.1", nombre := str "OLT-1", modelo := str "VSOL",
    snmp_community := some (str "public") }

/-- A device whose command outputs read temperature `0`, CPU `45.5%` and
memory `0%`. -/
def netMetrics : Net :=
  { snmpGet := fun _ _ _ => none
    snmpWalk := fun _ _ _ => []
    port22 := fun _ => false
    sshConnect := fun _ _ => false
    cmd := fun _ command =>
      if command = cmdTemperature then str "temperature 0"
      else if command = cmdCpu then str "cpu usage 45.5%"
      else if command = cmdMem then str "memory usage 0%"
      else [] }

/-! ### Helper lemmas -/

theorem numScan_no_match (f : Str → Bool) :
    ∀ ls : List Str, (∀ l ∈ ls, f l = false) → numScan f ls = .ok none := by
  intro ls h
  induction ls with
  | nil => rfl
  | cons l ls ih =>
    have hl : f l = false := h l (List.mem_cons_self l ls)
    simp only [numScan, hl, Bool.false_eq_true, if_false]
    exact ih fun x hx => h x (List.mem_cons_of_mem l hx)

theorem length_filter_mono {α : Type} (p q : α → Bool) (h : ∀ x, p x = true → q x = true) :
    ∀ l : List α, (l.filter p).length ≤ (l.filter q).length := by
  intro l
  induction l with
  | nil => exact Nat.le_refl 0
  | cons x xs ih =>
    by_cases hp : p x = true
    · simp [List.filter, hp, h x hp, Nat.succ_le_succ ih]
    · rcases hq : q x with _ | _
      · simp [List.filter, Bool.eq_false_iff.mpr hp, hq]; exact ih
      · simp [List.filter, Bool.eq_false_iff.mpr hp, hq]
        exact Nat.le_trans ih (Nat.le_succ _)

theorem onus_count_fold (l : List ONUInfo) :
    ∀ a : Nat, l.foldl (fun a o => if o.rx_power < -27 then a + 1 else a) a
      = a + (l.filter (fun o => decide (o.rx_power < -27))).length := by
  induction l with
  | nil => intro a; simp
  | cons o os ih =>
    intro a
    by_cases ho : o.rx_power < -27
    · simp [List.foldl, List.filter, ho, ih, Nat.add_comm, Nat.add_assoc, Nat.add_left_comm]
    · simp [List.foldl, List.filter, ho, ih]

theorem allOnus_cons (e : Str × OLTInfo) (es : Inventario) :
    allOnus (e :: es) = e.2.onus_detalladas ++ allOnus es := by
  simp [allOnus]

theorem senal_baja_eq_filter (inv : Inventario) :
    (obtener_estadisticas inv).onus_senal_baja
      = ((allOnus inv).filter (fun o => decide (o.rx_power < -27))).length := by
  suffices h : ∀ a : Nat,
      inv.foldl (fun acc e => e.2.onus_detalladas.foldl
        (fun a o => if o.rx_power < -27 then a + 1 else a) acc) a
      = a + ((allOnus inv).filter (fun o => decide (o.rx_power < -27))).length by
    simpa [obtener_estadisticas] using h 0
  induction inv with
  | nil => intro a; simp [allOnus]
  | cons e es ih =>
    intro a
    rw [List.foldl_cons, onus_count_fold, ih, allOnus_cons, List.filter_append,
      List.length_append, Nat.add_assoc]

theorem lookup_upsert (k a : Str) (v : OLTInfo) :
    ∀ m : Inventario, lookupInv k (upsert a v m) = if a = k then some v else lookupInv k m := by
  intro m
  induction m with
  | nil => simp [upsert, lookupInv]
  | cons e rest ih =>
    obtain ⟨k', v'⟩ := e
    by_cases hk : k' = a
    · subst hk
      by_cases hak : k' = k <;> simp [upsert, lookupInv, hak]
    · by_cases hak : k' = k
      · subst hak
        have : ¬a = k' := fun h => hk h.symm
        simp [upsert, lookupInv, hk, this]
      · simp [upsert, lookupInv, hk, hak, ih]

theorem upsert_self (a : Str) (v : OLTInfo) :
    ∀ m : Inventario, lookupInv a m = some v → upsert a v m = m := by
  intro m
  induction m with
  | nil => intro h; simp [lookupInv] at h
  | cons e rest ih =>
    obtain ⟨k', v'⟩ := e
    intro h
    by_cases hk : k' = a
    · subst hk
      simp [lookupInv] at h
      simp [upsert, h]
    · simp [lookupInv, hk] at h
      simp [upsert, hk, ih h]

theorem claves_upsert (a : Str) (v : OLTInfo) :
    ∀ m : Inventario, claves (upsert a v m)
      = if a ∈ claves m then claves m else claves m ++ [a] := by
  intro m
  induction m with
  | nil =>
    rw [if_neg (show a ∈ claves ([] : Inventario) → False from fun h => List.not_mem_nil a h)]
    rfl
  | cons e rest ih =>
    obtain ⟨k', v'⟩ := e
    by_cases hk : k' = a
    · subst hk
      have h1 : upsert k' v ((k', v') :: rest) = (k', v) :: rest := by
        unfold upsert
        rw [if_pos rfl]
      have h2 : claves ((k', v) :: rest) = k' :: claves rest := rfl
      have h3 : claves ((k', v') :: rest) = k' :: claves rest := rfl
      rw [h1, h2, h3, if_pos (List.mem_cons_self k' (claves rest))]
    · have hcons : (a ∈ k' :: claves rest) ↔ a ∈ claves rest := by
        constructor
        · intro h
          rcases List.mem_cons.mp h with h1 | h1
          · exact absurd h1.symm hk
          · exact h1
        · exact fun h => List.mem_cons_of_mem _ h
      have hstep : claves (upsert a v ((k', v') :: rest)) = k' :: claves (upsert a v rest) := by
        simp [upsert, hk, claves]
      have hcl : claves ((k', v') :: rest) = k' :: claves rest := by simp [claves]
      rw [hstep, ih, hcl]
      by_cases hmem : a ∈ claves rest
      · rw [if_pos hmem, if_pos (hcons.mpr hmem)]
      · rw [if_neg hmem, if_neg (fun hc => hmem (hcons.mp hc))]
        rfl

theorem mem_claves_upsert (b a : Str) (v : OLTInfo) (m : Inventario) :
    b ∈ claves (upsert a v m) ↔ b = a ∨ b ∈ claves m := by
  rw [claves_upsert]
  by_cases hmem : a ∈ claves m
  · rw [if_pos hmem]
    constructor
    · exact fun h => Or.inr h
    · rintro (rfl | h)
      · exact hmem
      · exact h
  · rw [if_neg hmem]
    constructor
    · intro h
      rcases List.mem_append.mp h with h1 | h1
      · exact Or.inr h1
      · exact Or.inl (List.mem_singleton.mp h1)
    · rintro (rfl | h1)
      · exact List.mem_append.mpr (Or.inr (List.mem_singleton.mpr rfl))
      · exact List.mem_append.mpr (Or.inl h1)

theorem nodup_claves_upsert (a : Str) (v : OLTInfo) (m : Inventario)
    (h : (claves m).Nodup) : (claves (upsert a v m)).Nodup := by
  rw [claves_upsert]
  by_cases hmem : a ∈ claves m
  · rwa [if_pos hmem]
  · rw [if_neg hmem]
    refine List.Nodup.append h (List.nodup_singleton a) ?_
    intro x hx hx2
    rw [List.mem_singleton] at hx2
    subst hx2
    exact hmem hx

theorem nodup_claves_verificar (net : Net) (creds : List Cred) (comms : List Str)
    (inv : Inventario) (ip : Str) (h : (claves inv).Nodup) :
    (claves (verificar_ip net creds comms inv ip)).Nodup := by
  unfold verificar_ip
  cases scanResult net creds comms ip with
  | none => exact h
  | some r => exact nodup_claves_upsert ip r inv h

theorem nodup_claves_escanear (net : Net) (creds : List Cred) (comms : List Str) :
    ∀ (addrs : List Str) (inv : Inventario), (claves inv).Nodup →
      (claves (escanear_red_empresarial net creds comms addrs inv)).Nodup := by
  intro addrs
  induction addrs with
  | nil => intro inv h; exact h
  | cons a as ih =>
    intro inv h
    exact ih _ (nodup_claves_verificar net creds comms inv a h)

theorem lookup_escanear (net : Net) (creds : List Cred) (comms : List Str) :
    ∀ (addrs : List Str) (inv : Inventario) (k : Str),
      lookupInv k (escanear_red_empresarial net creds comms addrs inv)
        = if k ∈ addrs ∧ (scanResult net creds comms k).isSome
          then scanResult net creds comms k else lookupInv k inv := by
  intro addrs
  induction addrs with
  | nil => intro inv k; simp [escanear_red_empresarial]
  | cons a as ih =>
    intro inv k
    have step : escanear_red_empresarial net creds comms (a :: as) inv
        = escanear_red_empresarial net creds comms as (verificar_ip net creds comms inv a) := rfl
    rw [step, ih]
    by_cases hmem : k ∈ as ∧ (scanResult net creds comms k).isSome
    · have h2 : k ∈ a :: as ∧ (scanResult net creds comms k).isSome :=
        ⟨List.mem_cons_of_mem a hmem.1, hmem.2⟩
      rw [if_pos hmem, if_pos h2]
    · rw [if_neg hmem]
      by_cases hak : k = a
      · subst hak
        unfold verificar_ip
        cases hs : scanResult net creds comms k with
        | none => simp
        | some r =>
          show lookupInv k (upsert k r inv) = _
          rw [lookup_upsert, if_pos rfl, if_pos ⟨List.mem_cons_self k as, rfl⟩]
      · have h2 : ¬(k ∈ a :: as ∧ (scanResult net creds comms k).isSome) := by
          intro hc
          rcases List.mem_cons.mp hc.1 with h1 | h1
          · exact hak h1
          · exact hmem ⟨h1, hc.2⟩
        rw [if_neg h2]
        unfold verificar_ip
        cases hs : scanResult net creds comms a with
        | none => rfl
        | some r =>
          show lookupInv k (upsert a r inv) = _
          rw [lookup_upsert, if_neg (fun h => hak h.symm)]

theorem escanear_fixed (net : Net) (creds : List Cred) (comms : List Str) :
    ∀ (addrs : List Str) (m : Inventario),
      (∀ a ∈ addrs, ∀ r, scanResult net creds comms a = some r → lookupInv a m = some r) →
      escanear_red_empresarial net creds comms addrs m = m := by
  intro addrs
  induction addrs with
  | nil => intro m _; rfl
  | cons a as ih =>
    intro m h
    have step : escanear_red_empresarial net creds comms (a :: as) m
        = escanear_red_empresarial net creds comms as (verificar_ip net creds comms m a) := rfl
    have hv : verificar_ip net creds comms m a = m := by
      unfold verificar_ip
      cases hs : scanResult net creds comms a with
      | none => rfl
      | some r => exact upsert_self a r m (h a (List.mem_cons_self a as) r hs)
    rw [step, hv]
    exact ih m fun x hx r hr => h x (List.mem_cons_of_mem a hx) r hr

theorem escanear_idem (net : Net) (creds : List Cred) (comms : List Str)
    (addrs : List Str) (inv : Inventario) :
    escanear_red_empresarial net creds comms addrs
        (escanear_red_empresarial net creds comms addrs inv)
      = escanear_red_empresarial net creds comms addrs inv := by
  apply escanear_fixed
  intro a ha r hr
  rw [lookup_escanear]
  have h2 : a ∈ addrs ∧ (scanResult net creds comms a).isSome := ⟨ha, by rw [hr]; rfl⟩
  rw [if_pos h2, hr]

theorem probar_eq_find (net : Net) (ip : Str) :
    ∀ comms : List Str, probar_snmp_olt net comms ip
      = (comms.find? fun c => (snmpCandidate net ip c).isSome).bind (snmpCandidate net ip) := by
  intro comms
  induction comms with
  | nil => rfl
  | cons c cs ih =>
    cases hg : net.snmpGet ip sysDescrOid c with
    | none =>
      have hc : snmpCandidate net ip c = none := by simp [snmpCandidate, hg]
      have hp : probar_snmp_olt net (c :: cs) ip = probar_snmp_olt net cs ip := by
        simp [probar_snmp_olt, hg]
      rw [hp, ih, List.find?]
      simp [hc]
    | some d =>
      by_cases hm : ¬d.isEmpty ∧ esMarcadorSnmp d
      · have hc : snmpCandidate net ip c = some (buildSnmpInfo net ip c d) := by
          simp [snmpCandidate, hg, hm]
        have hp : probar_snmp_olt net (c :: cs) ip = some (buildSnmpInfo net ip c d) := by
          simp [probar_snmp_olt, hg, hm]
        rw [hp, List.find?]
        simp [hc]
      · have hc : snmpCandidate net ip c = none := by
          simp only [snmpCandidate, hg]
          rw [if_neg hm]
        have hp : probar_snmp_olt net (c :: cs) ip = probar_snmp_olt net cs ip := by
          simp only [probar_snmp_olt, hg]
          rw [if_neg hm]
        rw [hp, ih, List.find?]
        simp [hc]

theorem identificar_attempts_spec (net : Net) (ip : Str) :
    ∀ creds : List Cred,
      identificarAttempts net ip creds
        = creds.takeWhile (fun c => !credHit net ip c)
          ++ (creds.dropWhile (fun c => !credHit net ip c)).take 1 := by
  intro creds
  induction creds with
  | nil => rfl
  | cons c cs ih =>
    by_cases hconn : net.sshConnect ip c = true
    · by_cases hv : es_olt_vsol (net.cmd ip cmdShowVersion) = true
      · have hhit : credHit net ip c = true := by simp [credHit, hconn, hv]
        have : identificarAttempts net ip (c :: cs) = [c] := by
          simp [identificarAttempts, identificarGo, hconn, hv]
        rw [this, List.takeWhile, List.dropWhile]
        simp [hhit]
      · have hhit : credHit net ip c = false := by
          simp [credHit, hconn, Bool.eq_false_iff.mp (Bool.not_eq_true _ ▸ hv)]
        have : identificarAttempts net ip (c :: cs) = c :: identificarAttempts net ip cs := by
          simp [identificarAttempts, identificarGo, hconn, hv]
        rw [this, ih, List.takeWhile, List.dropWhile]
        simp [hhit]
    · have hhit : credHit net ip c = false := by
        simp [credHit, Bool.eq_false_iff.mp (Bool.not_eq_true _ ▸ hconn)]
      have : identificarAttempts net ip (c :: cs) = c :: identificarAttempts net ip cs := by
        simp [identificarAttempts, identificarGo, hconn]
      rw [this, ih, List.takeWhile, List.dropWhile]
      simp [hhit]

theorem identificar_isSome_spec (net : Net) (ip : Str) :
    ∀ creds : List Cred,
      (identificar_olt_vsol net ip creds).isSome = creds.any (credHit net ip) := by
  intro creds
  induction creds with
  | nil => rfl
  | cons c cs ih =>
    by_cases hconn : net.sshConnect ip c = true
    · by_cases hv : es_olt_vsol (net.cmd ip cmdShowVersion) = true
      · simp [identificar_olt_vsol, identificarGo, hconn, hv, credHit]
      · simp only [identificar_olt_vsol, identificarGo, hconn, if_true]
        simp only [Bool.not_eq_true] at hv
        simp [hv, List.any_cons, credHit, hconn]
        simpa [identificar_olt_vsol] using ih
    · simp only [Bool.not_eq_true] at hconn
      simp only [identificar_olt_vsol, identificarGo, hconn, Bool.false_eq_true, if_false]
      simp [List.any_cons, credHit, hconn]
      simpa [identificar_olt_vsol] using ih

theorem lookup_refresh (net : Net) (creds : List Cred) :
    ∀ (inv : Inventario) (k : Str),
      lookupInv k (actualizar_todas_olts net creds inv)
        = (lookupInv k inv).map (refreshOne net creds k) := by
  intro inv
  induction inv with
  | nil => intro k; rfl
  | cons e rest ih =>
    intro k
    obtain ⟨k', v⟩ := e
    by_cases hk : k' = k
    · subst hk
      simp [actualizar_todas_olts, lookupInv]
    · simp only [actualizar_todas_olts, List.map_cons, lookupInv, if_neg hk]
      simpa [actualizar_todas_olts] using ih k

theorem refreshOne_snmp (net : Net) (creds : List Cred) (ip : Str) (rec : OLTInfo)
    (h : rec.snmp_community.isSome = true) : refreshOne net creds ip rec = rec := by
  cases hc : rec.snmp_community with
  | none => rw [hc] at h; exact absurd h (by simp)
  | some c =>
    unfold refreshOne
    rw [if_pos ⟨by rw [hc]; rfl, by simp [actualizar_olt_snmp, hc]⟩]

theorem refreshOne_shell_fail (net : Net) (creds : List Cred) (ip : Str) (rec : OLTInfo)
    (hs : rec.snmp_community = none)
    (h : ∀ c0, creds.head? = some c0 → net.sshConnect ip c0 = false) :
    refreshOne net creds ip rec = rec := by
  unfold refreshOne
  rw [if_neg ?_]
  · cases creds with
    | nil => rfl
    | cons c0 cs =>
      have := h c0 rfl
      simp [this]
  · intro hc
    rw [hs] at hc
    exact absurd hc.1 (by simp)

theorem detallesGo_unusable (net : Net) (ip : Str) :
    ∀ cs : List Str,
      (∀ c ∈ cs, (net.cmd ip c).isEmpty = true
        ∨ hasSub (str "invalid") (lowerStr (net.cmd ip c)) = true) →
      detallesGo net ip cs = (none, -999, -999) := by
  intro cs
  induction cs with
  | nil => intro _; rfl
  | cons c rest ih =>
    intro h
    have hc := h c (List.mem_cons_self c rest)
    have hcond : ¬(¬(net.cmd ip c).isEmpty = true
        ∧ ¬hasSub (str "invalid") (lowerStr (net.cmd ip c)) = true) := by
      rcases hc with h1 | h1
      · exact fun hc2 => hc2.1 h1
      · exact fun hc2 => hc2.2 h1
    unfold detallesGo
    rw [if_neg hcond]
    exact ih fun x hx => h x (List.mem_cons_of_mem c hx)

/-! ### Claim theorems -/

/-- C1 (counterexample): against the device `netGeneric`, the connection
with credential `credB` succeeds, yet the shell prober still attempts the
later credential `credC`: the attempt list is all of `[credA, credB,
credC]`.  This refutes "never attempting any later credential once a
connection has succeeded": a successful connection to a device whose
version output shows no vendor marker does not stop the rotation. -/
theorem shell_rotation_c1_counterexample :
    netGeneric.sshConnect ip1 credB = true
      ∧ identificarAttempts netGeneric ip1 [credA, credB, credC]
        = [credA, credB, credC] := by decide

/-- C1 (amended): the shell prober attempts credentials strictly in the
configured order and stops at the first credential whose connection
succeeds AND whose version output identifies a VSOL terminal
(`credHit`); every credential before that one is attempted, none after
it, and the prober succeeds exactly when some credential hits. -/
theorem shell_rotation_c1 :
    ∀ (net : Net) (ip : Str) (creds : List Cred),
      identificarAttempts net ip creds
        = creds.takeWhile (fun c => !credHit net ip c)
          ++ (creds.dropWhile (fun c => !credHit net ip c)).take 1
      ∧ (identificar_olt_vsol net ip creds).isSome = creds.any (credHit net ip) :=
  fun net ip creds =>
    ⟨identificar_attempts_spec net ip creds, identificar_isSome_spec net ip creds⟩

/-- C2: the temperature and RX/TX-power extractors are NOT total: a line
whose keyword matches and whose first guarded token passes the
digit-guard but is not a valid float literal (for example `1.2.3`) makes
`float()` raise, and the error escapes the extractor.  The last two
conjuncts exhibit the mechanism: the guard accepts the token while the
parse fails. -/
theorem extractors_total_c2_bug :
    extraer_temperatura (str "temperature 1.2.3") = .error ()
      ∧ extraer_rx_power (str "Rx Power 1.2.3 dBm") = .error ()
      ∧ extraer_tx_power (str "Tx Power 1-2 dBm") = .error ()
      ∧ digitGuard (str "1.2.3") = true
      ∧ pyFloat (str "1.2.3") = none := by decide

/-- C5: the SNMP prober returns exactly the candidate of the first
community whose system-description query succeeds with a marker-bearing
description (`none` — not an error — when no community qualifies), and
the marker match is case-insensitive: `"vsol gpon olt v2"` matches while
`"generic router"` does not. -/
theorem snmp_prober_first_match_c5 :
    (∀ (net : Net) (ip : Str) (comms : List Str),
      probar_snmp_olt net comms ip
        = (comms.find? fun c => (snmpCandidate net ip c).isSome).bind (snmpCandidate net ip))
      ∧ esMarcadorSnmp (str "vsol gpon olt v2") = true
      ∧ esMarcadorSnmp (str "generic router") = false :=
  ⟨fun net ip comms => probar_eq_find net ip comms, by decide, by decide⟩

/-- C6: on any text none of whose lines carries the relevant keywords the
RX/TX extractors return the sentinel `-999` and the temperature extractor
returns `None`, with no error; in particular on the spec's concrete
inputs `"no mention of power"` and `"no temperature here"`. -/
theorem extraction_sentinels_c6 (out : Str)
    (hrx : ∀ l ∈ splitOnChar '\n' out,
      (hasSub (str "rx") (lowerStr l) && hasSub (str "power") (lowerStr l)) = false)
    (htx : ∀ l ∈ splitOnChar '\n' out,
      (hasSub (str "tx") (lowerStr l) && hasSub (str "power") (lowerStr l)) = false)
    (ht : ∀ l ∈ splitOnChar '\n' out, hasSub (str "temperature") (lowerStr l) = false) :
    extraer_rx_power out = .ok (-999)
      ∧ extraer_tx_power out = .ok (-999)
      ∧ extraer_temperatura out = .ok none
      ∧ extraer_rx_power (str "no mention of power") = .ok (-999)
      ∧ extraer_tx_power (str "no mention of power") = .ok (-999)
      ∧ extraer_temperatura (str "no temperature here") = .ok none := by
  refine ⟨?_, ?_, ?_, by decide, by decide, by decide⟩
  · unfold extraer_rx_power
    rw [numScan_no_match _ _ hrx]
    rfl
  · unfold extraer_tx_power
    rw [numScan_no_match _ _ htx]
    rfl
  · unfold extraer_temperatura
    exact numScan_no_match _ _ ht

/-- Witness for C6 at the keyword-free input `"hello world"`. -/
theorem extraction_sentinels_c6_witness :
    extraer_rx_power (str "hello world") = .ok (-999)
      ∧ extraer_tx_power (str "hello world") = .ok (-999)
      ∧ extraer_temperatura (str "hello world") = .ok none := by
  have h := extraction_sentinels_c6 (str "hello world") (by decide) (by decide) (by decide)
  exact ⟨h.1, h.2.1, h.2.2.1⟩

/-- C7: the aggregate statistics count as low-signal exactly the units
with RX power strictly below −27 dBm, and the demo device with readings
`[-20, -28, -30]` reports a low-signal count of 2. -/
theorem low_signal_count_c7 :
    (∀ inv : Inventario, (obtener_estadisticas inv).onus_senal_baja
        = ((allOnus inv).filter (fun o => decide (o.rx_power < -27))).length)
      ∧ (obtener_estadisticas invDemo).onus_senal_baja = 2 :=
  ⟨senal_baja_eq_filter, by decide⟩

/-- C3: the inventory map keeps at most one record per address (the key
list stays duplicate-free across a scan pass), and a second scan pass
over the unchanged network is the identity: same map, hence the same
device count, the same total unit count, and the same per-address unit
count. -/
theorem inventory_idem_c3 (net : Net) (creds : List Cred) (comms : List Str)
    (addrs : List Str) (inv : Inventario) (h : (claves inv).Nodup) :
    (claves (escanear_red_empresarial net creds comms addrs inv)).Nodup
    ∧ escanear_red_empresarial net creds comms addrs
        (escanear_red_empresarial net creds comms addrs inv)
      = escanear_red_empresarial net creds comms addrs inv
    ∧ (obtener_estadisticas (escanear_red_empresarial net creds comms addrs
        (escanear_red_empresarial net creds comms addrs inv))).total_olts
      = (obtener_estadisticas (escanear_red_empresarial net creds comms addrs inv)).total_olts
    ∧ (obtener_estadisticas (escanear_red_empresarial net creds comms addrs
        (escanear_red_empresarial net creds comms addrs inv))).total_onus
      = (obtener_estadisticas (escanear_red_empresarial net creds comms addrs inv)).total_onus
    ∧ ∀ k, (lookupInv k (escanear_red_empresarial net creds comms addrs
        (escanear_red_empresarial net creds comms addrs inv))).map OLTInfo.total_onus
      = (lookupInv k (escanear_red_empresarial net creds comms addrs inv)).map
          OLTInfo.total_onus := by
  have hidem := escanear_idem net creds comms addrs inv
  exact ⟨nodup_claves_escanear net creds comms addrs inv h, hidem,
    by rw [hidem], by rw [hidem], fun k => by rw [hidem]⟩

/-- Witness for C3: a scan over two addresses, one SNMP device, starting
from the empty inventory. -/
theorem inventory_idem_c3_witness :
    (claves ([] : Inventario)).Nodup
    ∧ (claves (escanear_red_empresarial netSnmpDemo [credA] [str "public"] addrsDemo [])).Nodup
    ∧ escanear_red_empresarial netSnmpDemo [credA] [str "public"] addrsDemo
        (escanear_red_empresarial netSnmpDemo [credA] [str "public"] addrsDemo [])
      = escanear_red_empresarial netSnmpDemo [credA] [str "public"] addrsDemo [] := by
  have h := inventory_idem_c3 netSnmpDemo [credA] [str "public"] addrsDemo [] (by decide)
  exact ⟨by decide, h.1, h.2.1⟩

/-- C8: a refresh pass never removes an inventoried device (key presence
is invariant), and a device that fails to respond — no stored community
and the first-credential connection refused — keeps its last-known record
byte for byte. -/
theorem refresh_no_removal_c8 (net : Net) (creds : List Cred) (inv : Inventario)
    (ip : Str) (rec : OLTInfo)
    (h1 : lookupInv ip inv = some rec)
    (h2 : rec.snmp_community = none →
      ∀ c0, creds.head? = some c0 → net.sshConnect ip c0 = false) :
    lookupInv ip (actualizar_todas_olts net creds inv) = some rec
    ∧ ∀ k, (lookupInv k (actualizar_todas_olts net creds inv)).isSome
        = (lookupInv k inv).isSome := by
  constructor
  · rw [lookup_refresh, h1]
    cases hc : rec.snmp_community with
    | some c => simp [refreshOne_snmp net creds ip rec (by rw [hc]; rfl)]
    | none => simp [refreshOne_shell_fail net creds ip rec hc (h2 hc)]
  · intro k
    rw [lookup_refresh]
    cases lookupInv k inv <;> rfl

/-- Witness for C8: a fully unresponsive network leaves the one-device
inventory untouched. -/
theorem refresh_no_removal_c8_witness :
    lookupInv (str "192.168.0.5") invShellDemo = some recShellDemo
    ∧ lookupInv (str "192.168.0.5") (actualizar_todas_olts netDown [credA] invShellDemo)
      = some recShellDemo := by
  have h := refresh_no_removal_c8 netDown [credA] invShellDemo (str "192.168.0.5")
    recShellDemo (by decide) (fun _ c0 _ => rfl)
  exact ⟨by decide, h.1⟩

/-- C9: when no detail command yields usable output the per-unit query
returns the RX sentinel `-999`; any unit carrying the sentinel passes the
low-signal test `rx_power < -27`; hence the low-signal aggregate counts
at least every sentinel-carrying unit. -/
theorem sentinel_low_c9 :
    (∀ (net : Net) (ip interfaz onuId : Str),
      (∀ c ∈ detallesCmds interfaz onuId, (net.cmd ip c).isEmpty = true
        ∨ hasSub (str "invalid") (lowerStr (net.cmd ip c)) = true) →
      obtener_detalles_onu net ip interfaz onuId = (none, -999, -999))
    ∧ (∀ o : ONUInfo, o.rx_power = -999 → decide (o.rx_power < -27) = true)
    ∧ (∀ inv : Inventario,
        ((allOnus inv).filter (fun o => decide (o.rx_power = -999))).length
          ≤ (obtener_estadisticas inv).onus_senal_baja) := by
  refine ⟨?_, ?_, ?_⟩
  · intro net ip interfaz onuId h
    exact detallesGo_unusable net ip _ h
  · intro o h
    rw [h]
    decide
  · intro inv
    rw [senal_baja_eq_filter]
    refine length_filter_mono _ _ ?_ (allOnus inv)
    intro o ho
    have hrx : o.rx_power = -999 := of_decide_eq_true ho
    rw [hrx]
    decide

/-- Witness for C9: a dead session yields the sentinel triple, and a unit
reading −999 passes the low-signal test. -/
theorem sentinel_low_c9_witness :
    obtener_detalles_onu netDown (str "10.0.0.9") (str "gpon0/1") (str "1")
      = (none, -999, -999)
    ∧ decide ((onuDemo (-999)).rx_power < -27) = true := by
  have h := sentinel_low_c9
  exact ⟨h.1 netDown (str "10.0.0.9") (str "gpon0/1") (str "1") (by decide),
    h.2.1 (onuDemo (-999)) (by decide)⟩

/-- C4 (counterexample): against `netVsolB` only the second credential
`credB` connects, and discovery identifies the device with it; yet the
refresh pass for the resulting record makes exactly one attempt,
`credenciales[0]` over the shell — the record stores no credential index,
so the claimed "re-query via the stored credential index" fails (the
first configured credential differs from the one that succeeded at
discovery). -/
theorem refresh_auth_c4_counterexample :
    ((identificarGo netVsolB ip1 [credA, credB]).2.map Prod.fst) = some credB
    ∧ (identificar_olt_vsol netVsolB ip1 [credA, credB]).map
        (refreshAttempts netVsolB [credA, credB]) = some [Auth.shell 0]
    ∧ [credA, credB].getD 0 credB ≠ credB := by decide

/-- C4 (amended): the refresh pass re-queries an SNMP-discovered device
via its stored community string (and, the SNMP info-gathering never
reporting failure, makes no further attempt and leaves the record as is);
a device without a stored community — in particular every
shell-discovered device — is always re-queried with the first configured
shell credential, regardless of which credential succeeded at discovery,
and is updated exactly when that connection succeeds. -/
theorem refresh_auth_c4 (net : Net) (creds : List Cred) (ip : Str) (rec : OLTInfo) :
    (∀ c, rec.snmp_community = some c →
      refreshAttempts net creds rec = [Auth.snmp c]
      ∧ refreshOne net creds ip rec = rec)
    ∧ (rec.snmp_community = none → ∀ c0 cs, creds = c0 :: cs →
      refreshAttempts net creds rec = [Auth.shell 0]
      ∧ (net.sshConnect ip c0 = false → refreshOne net creds ip rec = rec)
      ∧ (net.sshConnect ip c0 = true →
          refreshOne net creds ip rec = (actualizar_informacion_olt net ip rec).1)) := by
  constructor
  · intro c hc
    refine ⟨by simp [refreshAttempts, hc, actualizar_olt_snmp], ?_⟩
    exact refreshOne_snmp net creds ip rec (by rw [hc]; rfl)
  · intro hn c0 cs hcreds
    subst hcreds
    refine ⟨by simp [refreshAttempts, hn], ?_, ?_⟩
    · intro hconn
      refine refreshOne_shell_fail net (c0 :: cs) ip rec hn ?_
      intro c1 hc1
      have hcc : c0 = c1 := by simpa using hc1
      rw [← hcc]
      exact hconn
    · intro hconn
      have hcond : ¬(rec.snmp_community.isSome = true ∧ actualizar_olt_snmp net rec = true) := by
        intro hcond
        rw [hn] at hcond
        exact absurd hcond.1 (by simp)
      unfold refreshOne
      rw [if_neg hcond]
      simp [hconn]

/-- Witness for C4 (amended): both branches at concrete records over the
quiet network. -/
theorem refresh_auth_c4_witness :
    refreshAttempts netDown [credA] recSnmpDemo = [Auth.snmp (str "public")]
    ∧ refreshOne netDown [credA] (str "10.0.0.1") recSnmpDemo = recSnmpDemo
    ∧ refreshAttempts netDown [credA] recShellDemo = [Auth.shell 0]
    ∧ refreshOne netDown [credA] (str "192.168.0.5") recShellDemo = recShellDemo := by
  have h1 := (refresh_auth_c4 netDown [credA] (str "10.0.0.1") recSnmpDemo).1
    (str "public") (by decide)
  have h2 := (refresh_auth_c4 netDown [credA] (str "192.168.0.5") recShellDemo).2
    (by decide) credA [] rfl
  exact ⟨h1.1, h1.2, h2.1, h2.2.1 rfl⟩

theorem mem_metric_iff (n name : Str) (o : Option Rat) (v : Rat) :
    ((n, v) ∈ (if truthyR o then [(name, o.getD 0)] else []))
      ↔ (n = name ∧ o = some v ∧ v ≠ 0) := by
  cases o with
  | none =>
    simp [truthyR]
  | some w =>
    by_cases hw : w = 0
    · subst hw
      have ht : truthyR (some (0 : Rat)) = false := by decide
      rw [ht]
      simp only [Bool.false_eq_true, if_false, List.not_mem_nil, false_iff]
      rintro ⟨-, hv, hv0⟩
      exact hv0 (Option.some.inj hv).symm
    · have ht : truthyR (some w) = true := by simp [truthyR, hw]
      rw [ht]
      simp only [if_true, Option.getD_some, List.mem_singleton, Prod.mk.injEq]
      constructor
      · rintro ⟨hn, hv⟩
        exact ⟨hn, by rw [hv], by rw [hv]; exact hw⟩
      · rintro ⟨hn, hv, -⟩
        exact ⟨hn, (Option.some.inj hv).symm⟩

/-- C10: during a telemetry refresh, a metric sample (`temperatura`,
`cpu`, `memoria`) is handed to persistence exactly when the extracted
value is present and nonzero — truthiness, so an extracted `0` is never
persisted — while the in-memory record always stores the extracted values
as they are (including `0` and `None`); and if the temperature extraction
raises, the per-device handler leaves the record unchanged and persists
nothing. -/
theorem metric_persistence_c10 (net : Net) (ip : Str) (rec : OLTInfo) :
    (∀ t, extraer_temperatura (net.cmd ip cmdTemperature) = .ok t →
      ((actualizar_informacion_olt net ip rec).1.temperatura = t
       ∧ (actualizar_informacion_olt net ip rec).1.consumo_cpu
          = extraer_porcentaje (net.cmd ip cmdCpu)
       ∧ (actualizar_informacion_olt net ip rec).1.consumo_memoria
          = extraer_porcentaje (net.cmd ip cmdMem)
       ∧ (∀ v : Rat, (str "temperatura", v) ∈ (actualizar_informacion_olt net ip rec).2
            ↔ t = some v ∧ v ≠ 0)
       ∧ (∀ v : Rat, (str "cpu", v) ∈ (actualizar_informacion_olt net ip rec).2
            ↔ extraer_porcentaje (net.cmd ip cmdCpu) = some v ∧ v ≠ 0)
       ∧ (∀ v : Rat, (str "memoria", v) ∈ (actualizar_informacion_olt net ip rec).2
            ↔ extraer_porcentaje (net.cmd ip cmdMem) = some v ∧ v ≠ 0)))
    ∧ (extraer_temperatura (net.cmd ip cmdTemperature) = .error () →
        (actualizar_informacion_olt net ip rec).1 = rec
        ∧ (actualizar_informacion_olt net ip rec).2 = []) := by
  constructor
  · intro t ht
    have hms : (actualizar_informacion_olt net ip rec).2
        = (if truthyR t then [(str "temperatura", t.getD 0)] else [])
          ++ (if truthyR (extraer_porcentaje (net.cmd ip cmdCpu))
              then [(str "cpu", (extraer_porcentaje (net.cmd ip cmdCpu)).getD 0)] else [])
          ++ (if truthyR (extraer_porcentaje (net.cmd ip cmdMem))
              then [(str "memoria", (extraer_porcentaje (net.cmd ip cmdMem)).getD 0)] else []) := by
      simp [actualizar_informacion_olt, ht]
    have hT : (actualizar_informacion_olt net ip rec).1.temperatura = t := by
      simp [actualizar_informacion_olt, ht]
    have hC : (actualizar_informacion_olt net ip rec).1.consumo_cpu
        = extraer_porcentaje (net.cmd ip cmdCpu) := by
      simp [actualizar_informacion_olt, ht]
    have hM : (actualizar_informacion_olt net ip rec).1.consumo_memoria
        = extraer_porcentaje (net.cmd ip cmdMem) := by
      simp [actualizar_informacion_olt, ht]
    have hnTC : str "temperatura" ≠ str "cpu" := by decide
    have hnTM : str "temperatura" ≠ str "memoria" := by decide
    have hnCT : str "cpu" ≠ str "temperatura" := by decide
    have hnCM : str "cpu" ≠ str "memoria" := by decide
    have hnMT : str "memoria" ≠ str "temperatura" := by decide
    have hnMC : str "memoria" ≠ str "cpu" := by decide
    refine ⟨hT, hC, hM, ?_, ?_, ?_⟩
    · intro v
      rw [hms]
      simp only [List.mem_append, mem_metric_iff]
      constructor
      · rintro ((⟨-, hv⟩ | ⟨hbad, -⟩) | ⟨hbad, -⟩)
        · exact hv
        · exact absurd hbad hnTC
        · exact absurd hbad hnTM
      · intro hv
        exact Or.inl (Or.inl ⟨trivial, hv⟩)
    · intro v
      rw [hms]
      simp only [List.mem_append, mem_metric_iff]
      constructor
      · rintro ((⟨hbad, -⟩ | ⟨-, hv⟩) | ⟨hbad, -⟩)
        · exact absurd hbad hnCT
        · exact hv
        · exact absurd hbad hnCM
      · intro hv
        exact Or.inl (Or.inr ⟨trivial, hv⟩)
    · intro v
      rw [hms]
      simp only [List.mem_append, mem_metric_iff]
      constructor
      · rintro ((⟨hbad, -⟩ | ⟨hbad, -⟩) | ⟨-, hv⟩)
        · exact absurd hbad hnMT
        · exact absurd hbad hnMC
        · exact hv
      · intro hv
        exact Or.inr ⟨trivial, hv⟩
  · intro herr
    exact ⟨by simp [actualizar_informacion_olt, herr],
      by simp [actualizar_informacion_olt, herr]⟩

/-- Witness for C10: temperature 0 is stored on the record but not
persisted; CPU 45.5 is persisted. -/
theorem metric_persistence_c10_witness :
    (actualizar_informacion_olt netMetrics (str "10.0.0.7") recShellDemo).1.temperatura
      = some 0
    ∧ (str "temperatura", (0 : Rat))
        ∉ (actualizar_informacion_olt netMetrics (str "10.0.0.7") recShellDemo).2
    ∧ (str "cpu", mkRat 91 2)
        ∈ (actualizar_informacion_olt netMetrics (str "10.0.0.7") recShellDemo).2 := by
  have h := (metric_persistence_c10 netMetrics (str "10.0.0.7") recShellDemo).1
    (some 0) (by decide)
  refine ⟨h.1, ?_, ?_⟩
  · intro hmem
    exact ((h.2.2.2.1 0).mp hmem).2 rfl
  · exact (h.2.2.2.2.1 (mkRat 91 2)).mpr ⟨by decide, by decide⟩
